import Mathlib

/-!
Verification development for the AUTO-CURING worklist automation repository.

The definitions below are a shallow embedding of the reconciliation and
classification engine found in the repository sources:

  * src/utils/header_alignment.py   (header alignment engine)
  * src/pages/1_New_Endorsement.py  (monthly endorsement flow)
  * src/pages/2_Weekly_Endorsement.py (weekly endorsement flow)
  * src/pages/3_Daily_TAD_Update.py (daily delta-reconciliation flow)

Tables are lists of records; pandas cells are modelled by the `Cell`
inductive (a string, a number, or NaN); machine floats on monetary fields
are modelled by rationals; date-valued cells are strings parsed by an
executable parser mirroring the subset of `pd.to_datetime` behaviour the
flows rely on.
-/

/-- A pandas cell: a string, a numeric value, or a missing value (NaN). -/
inductive Cell where
  | str (s : String)
  | num (q : ℚ)
  | na
deriving DecidableEq, Repr

/-! ### Character and string helpers -/

/-- Drop leading and trailing whitespace, as Python `str.strip()`. -/
def trimChars (cs : List Char) : List Char :=
  ((cs.dropWhile Char.isWhitespace).reverse.dropWhile Char.isWhitespace).reverse

/-- `str(x).strip()` on a Lean string. -/
def trimStr (s : String) : String := ⟨trimChars s.data⟩

/-- Key normalization applied at load time: `df["LAN"].astype(str).str.strip()`. -/
def normLan (s : String) : String := trimStr s

/-- `.str.strip().str.upper()` normalization of a column name. -/
def upperStr (s : String) : String := ⟨(trimChars s.data).map Char.toUpper⟩

/-! ### Numeric cleaning (daily flow, `clean_numeric`, Daily_TAD_Update lines 272-296)

The source strips the currency sign, the dollar sign, thousands separators and
every dash character, trims, then coerces with `pd.to_numeric(errors="coerce")`
and fills failures with 0. -/

/-- Numeric value of a digit character. -/
def digitVal (c : Char) : Nat := c.toNat - 48

/-- Big-endian value of a digit string. -/
def valChars (cs : List Char) : Nat := cs.foldl (fun a c => 10 * a + digitVal c) 0

/-- Parse an unsigned decimal number (integer part, optional fraction part). -/
def parsePosQ (cs : List Char) : Option ℚ :=
  match cs.dropWhile Char.isDigit with
  | [] =>
      if (cs.takeWhile Char.isDigit).isEmpty then none
      else some ((valChars (cs.takeWhile Char.isDigit) : ℚ))
  | '.' :: frac =>
      if ((cs.takeWhile Char.isDigit).isEmpty && frac.isEmpty) then none
      else if frac.all Char.isDigit then
        some ((valChars (cs.takeWhile Char.isDigit) : ℚ) + (valChars frac : ℚ) / (10 ^ frac.length))
      else none
  | _ => none

/-- Parse a signed decimal number, the subset of `pd.to_numeric` / `float()`
behaviour exercised by the flows. -/
def parseQ (cs : List Char) : Option ℚ :=
  match cs with
  | '-' :: rest => (parsePosQ rest).map (fun q => -q)
  | '+' :: rest => parsePosQ rest
  | _ => parsePosQ cs

/-- The character filter of `clean_numeric`: remove the peso sign, the dollar
sign, commas and every dash, then strip. -/
def stripMoneyChars (cs : List Char) : List Char :=
  trimChars (cs.filter (fun c => !(c = '₱' || c = '$' || c = ',' || c = '-')))

/-- `clean_numeric` on one cell: `astype(str)`, strip currency characters and
dashes, `pd.to_numeric(errors="coerce").fillna(0)`.  A numeric cell round-trips
through its decimal representation with every dash removed, so its sign is
discarded. -/
def cleanNumeric (c : Cell) : ℚ :=
  match c with
  | .na => 0
  | .num q => |q|
  | .str s =>
      match parseQ (stripMoneyChars s.data) with
      | some q => q
      | none => 0

/-! ### Dates

Date-valued cells hold strings; the flows parse them with `pd.to_datetime`
(strict `%m/%d/%Y` format in the daily flow's `format_dates`, flexible
parsing elsewhere) and serialize with `strftime("%m/%d/%Y")`. -/

/-- A calendar date. -/
structure Date where
  y : Nat
  m : Nat
  d : Nat
deriving DecidableEq, Repr

/-- Gregorian leap-year test. -/
def isLeap (y : Nat) : Bool := (y % 4 == 0 && y % 100 != 0) || (y % 400 == 0)

/-- Number of days in a month. -/
def daysInMonth (y m : Nat) : Nat :=
  if m = 2 then (if isLeap y then 29 else 28)
  else if m = 4 ∨ m = 6 ∨ m = 9 ∨ m = 11 then 30
  else 31

/-- A structurally valid calendar date. -/
def ValidDate (dt : Date) : Prop :=
  1 ≤ dt.m ∧ dt.m ≤ 12 ∧ 1 ≤ dt.d ∧ dt.d ≤ daysInMonth dt.y dt.m

instance (dt : Date) : Decidable (ValidDate dt) := by
  unfold ValidDate; infer_instance

/-- Digit characters of `n` (big-endian), with enough fuel; structurally
recursive so that concrete renderings evaluate inside the kernel. -/
def natCharsAux : Nat → Nat → List Char
  | 0, _ => []
  | fuel + 1, n => if n = 0 then [] else natCharsAux fuel (n / 10) ++ [Nat.digitChar (n % 10)]

/-- Decimal digit characters of a natural number (big-endian, no padding). -/
def natChars (n : Nat) : List Char :=
  if n = 0 then ['0'] else natCharsAux n n

/-- Left-pad a character list with zeros to width `k`. -/
def padZeros (k : Nat) (cs : List Char) : List Char :=
  List.replicate (k - cs.length) '0' ++ cs

/-- Zero-padded two-digit field of `strftime` (`%m`, `%d`). -/
def pad2 (n : Nat) : List Char := padZeros 2 (natChars n)

/-- Zero-padded four-digit year field of `strftime` (`%Y`). -/
def pad4 (n : Nat) : List Char := padZeros 4 (natChars n)

/-- Character list of `strftime("%m/%d/%Y")`. -/
def fmtMDYChars (dt : Date) : List Char :=
  pad2 dt.m ++ '/' :: (pad2 dt.d ++ '/' :: pad4 dt.y)

/-- `strftime("%m/%d/%Y")` on a date. -/
def fmtMDY (dt : Date) : String := ⟨fmtMDYChars dt⟩

/-- Split a character list on a separator character. -/
def splitOnChar (sep : Char) : List Char → List (List Char)
  | [] => [[]]
  | c :: rest =>
      if c = sep then [] :: splitOnChar sep rest
      else (c :: (splitOnChar sep rest).headI) :: (splitOnChar sep rest).tail

/-- Parse an all-digit nonempty field as a natural number. -/
def parseNatChars (cs : List Char) : Option Nat :=
  if cs ≠ [] ∧ (∀ c ∈ cs, c.isDigit) then some (valChars cs) else none

/-- Split on `sep` into exactly three numeric fields. -/
def threeFields (sep : Char) (cs : List Char) : Option (Nat × Nat × Nat) :=
  match splitOnChar sep cs with
  | [a, b, c] =>
      match parseNatChars a, parseNatChars b, parseNatChars c with
      | some x, some y, some z => some (x, y, z)
      | _, _, _ => none
  | _ => none

/-- Build a date, rejecting invalid month or day values (as `pd.to_datetime`
raises or coerces on them). -/
def mkDate (y m d : Nat) : Option Date :=
  if ValidDate ⟨y, m, d⟩ then some ⟨y, m, d⟩ else none

/-- `pd.to_datetime(s, format="%m/%d/%Y")` on a string cell. -/
def parseStrictMDY (s : String) : Option Date :=
  match threeFields '/' s.data with
  | some (m, d, y) => mkDate y m d
  | none => none

/-- Flexible `pd.to_datetime(s)`: slash-separated strings are parsed
month-first, dash-separated strings ISO year-first; anything else fails. -/
def parseFlexDate (s : String) : Option Date :=
  if '/' ∈ s.data then parseStrictMDY s
  else if '-' ∈ s.data then
    match threeFields '-' s.data with
    | some (y, m, d) => mkDate y m d
    | none => none
  else none

/-- One pass of `format_dates` (flexible variant, Weekly_Endorsement line 91):
`pd.to_datetime(errors="coerce").strftime("%m/%d/%Y")` with NaT replaced by
the empty string. -/
def fmtCellFlex (s : String) : String :=
  match parseFlexDate s with
  | some dt => fmtMDY dt
  | none => ""

/-- One pass of the daily flow's `format_dates` (strict `%m/%d/%Y` format,
Daily_TAD_Update line 135). -/
def fmtCellStrict (s : String) : String :=
  match parseStrictMDY s with
  | some dt => fmtMDY dt
  | none => ""

/-! ### Due-Date Calculator

Weekly_Endorsement lines 295-309 and New_Endorsement lines 271-299:
`DUE DATE = OLDEST_DUE_DATE.dt.day`, `NEXT DUE DATE = OLDEST_DUE_DATE +
DateOffset(months=1)`; unparseable dates coerce to NaT and propagate as
empty values. -/

/-- `pandas.DateOffset(months=1)`: advance one calendar month, clamping the
day to the length of the target month. -/
def addOneMonth (dt : Date) : Date :=
  if dt.m = 12 then ⟨dt.y + 1, 1, min dt.d (daysInMonth (dt.y + 1) 1)⟩
  else ⟨dt.y, dt.m + 1, min dt.d (daysInMonth dt.y (dt.m + 1))⟩

/-- `DUE DATE` derivation: the day-of-month of the parsed oldest due date,
`none` (emitted as empty) when the date does not parse. -/
def computeDueDay (s : String) : Option Nat := (parseFlexDate s).map (·.d)

/-- `NEXT DUE DATE` derivation: the parsed oldest due date advanced by one
calendar month, `none` when the date does not parse. -/
def computeNextDue (s : String) : Option Date := (parseFlexDate s).map addOneMonth

/-! ### Excel serial dates and the revival oldest-due-date rule

Daily_TAD_Update lines 376-405: the TAD-side `OLDEST DUE DATE` is parsed with
`pd.to_datetime(format="%m/%d/%Y")`, the masterlist-side value is converted
from an Excel serial via `pd.Timestamp('1899-12-30') + pd.to_timedelta(val,
unit='D')` (after `float(val)`), and the row maximum of the two is kept. -/

/-- Day count of a calendar date on a linear timeline (proleptic Gregorian,
days since 1970-01-01, the standard civil-from-days construction). -/
def toSerial (dt : Date) : Int :=
  let y : Int := if dt.m ≤ 2 then (dt.y : Int) - 1 else (dt.y : Int)
  let m : Int := (dt.m : Int)
  let d : Int := (dt.d : Int)
  let era : Int := (if 0 ≤ y then y else y - 399) / 400
  let yoe : Int := y - era * 400
  let mp : Int := (m + 9) % 12
  let doy : Int := (153 * mp + 2) / 5 + d - 1
  let doe : Int := yoe * 365 + yoe / 4 - yoe / 100 + doy
  era * 146097 + doe - 719468

/-- `float(val)` on a masterlist cell: numbers pass through, numeric strings
parse (stripped), anything else raises (modelled as `none`). -/
def cellFloat (c : Cell) : Option ℚ :=
  match c with
  | .num q => some q
  | .str s => parseQ (trimChars s.data)
  | .na => none

/-- `excel_date_to_datetime`: `Timestamp('1899-12-30') + val` days, on the
timeline of `toSerial`. -/
def excelToTs (v : ℚ) : ℚ := ((toSerial ⟨1899, 12, 30⟩ : Int) : ℚ) + v

/-- The revival oldest-due-date computation on one row: strict-parse the
TAD-side cell, convert the masterlist-side cell from an Excel serial, then
keep the row maximum (`DataFrame.max(axis=1)` skips missing values). -/
def reviveOldest (tad : Cell) (mlv : Option Cell) : Option ℚ :=
  let t : Option ℚ :=
    match tad with
    | .str s => (parseStrictMDY s).map (fun dt => ((toSerial dt : Int) : ℚ))
    | _ => none
  let m : Option ℚ := (mlv.bind cellFloat).map excelToTs
  match t, m with
  | none, none => none
  | some a, none => some a
  | none, some b => some b
  | some a, some b => some (max a b)

/-! ### Weekly endorsement flow (Weekly_Endorsement lines 236-313)

A working row of the weekly active file and a masterlist row, restricted to
the fields classification touches.  Missing (NaN) masterlist `DATE REFERRED`
cells are encoded by `none`. -/

/-- A masterlist row: key, stored `DATE REFERRED` cell, stored
`OLDEST DUE DATE` cell (daily-flow revival lookups). -/
structure MRow where
  lan : String
  dateReferred : Option String
  oldestDue : Option Cell
deriving DecidableEq, Repr

/-- A weekly active-file row. -/
structure WRow where
  lan : String
  classification : String
  endoDate : String
  dateReferred : String
deriving DecidableEq, Repr

/-- `get_date_referred` (Weekly_Endorsement lines 262-279): `NEW ENDO` rows
get the run date; `REENDO` rows look the key up in the masterlist and keep
the stored value when present and non-blank — reformatted when it parses as
a date, returned verbatim when `pd.to_datetime` raises — falling back to the
run date otherwise. -/
def getDateReferred (cls lan : String) (ml : List MRow) (todayStr : String) : String :=
  if cls = "NEW ENDO" then todayStr
  else
    match ml.find? (fun m => m.lan = lan) with
    | none => todayStr
    | some m =>
        match m.dateReferred with
        | none => todayStr
        | some s =>
            if s.data.all Char.isWhitespace then todayStr
            else
              match parseFlexDate s with
              | some dt => fmtMDY dt
              | none => s

/-- Normalize masterlist keys as the weekly flow does
(`masterlist_df["LAN"].astype(str).str.strip()`, line 249). -/
def normML (ml : List MRow) : List MRow :=
  ml.map (fun m => { m with lan := normLan m.lan })

/-- Masterlist key set (`set(masterlist_df["LAN"].values)`, line 250). -/
def mlKeys (ml : List MRow) : List String := (normML ml).map (·.lan)

/-- Classification step of the weekly flow (lines 249-279): normalize keys,
classify by masterlist membership, stamp `ENDO DATE` with the run date, and
derive `DATE REFERRED`. -/
def weeklyClassify (rows : List WRow) (ml : List MRow) (todayStr : String) : List WRow :=
  rows.map (fun r =>
    let lan := normLan r.lan
    let cls := if lan ∈ mlKeys ml then "REENDO" else "NEW ENDO"
    { r with
        lan := lan
        classification := cls
        endoDate := todayStr
        dateReferred := getDateReferred cls lan (normML ml) todayStr })

/-- A suspicious row of the validation step (lines 281-285): classified
`REENDO` with `DATE REFERRED` equal to `ENDO DATE`. -/
def isSuspicious (r : WRow) : Bool :=
  r.classification = "REENDO" && r.dateReferred = r.endoDate

/-- Date-column formatting applied to the emitted active file (lines
301-304). -/
def formatWRow (r : WRow) : WRow :=
  { r with endoDate := fmtCellFlex r.endoDate, dateReferred := fmtCellFlex r.dateReferred }

/-- The weekly classification pipeline with its validation gate (lines
249-313): classify, collect suspicious rows, halt surfacing them when any
exist (`st.error` + `st.stop()`), otherwise format dates and emit. -/
def weeklyProcess (rows : List WRow) (ml : List MRow) (todayStr : String) :
    Except (List WRow) (List WRow) :=
  if ((weeklyClassify rows ml todayStr).filter isSuspicious).isEmpty then
    .ok ((weeklyClassify rows ml todayStr).map formatWRow)
  else .error ((weeklyClassify rows ml todayStr).filter isSuspicious)

/-! ### Daily TAD update flow (Daily_TAD_Update lines 196-469)

Input rows carry the raw cells the delta reconciler reads; the masterlist is
assumed to expose its `DATE REFERRED` / `OLDEST DUE DATE` columns, with
missing values as `none` / `Cell.na`.  `DATE REFERRED` strings use the empty
string for missing values (the invalid-value mask treats both alike). -/

/-- A raw input row of the active list or TAD table. -/
structure TRow where
  lan : String
  pastDue : Cell
  classification : String
  endoDate : String
  dateReferred : String
  oldestDue : Cell
deriving DecidableEq, Repr

/-- A working row after numeric cleaning. -/
structure ARow where
  lan : String
  pastDue : ℚ
  classification : String
  endoDate : String
  dateReferred : String
  oldestDue : Cell
deriving DecidableEq, Repr

/-- Load-time key normalization (lines 199-222). -/
def loadRow (r : TRow) : TRow := { r with lan := normLan r.lan }

/-- `drop_duplicates(subset=["LAN"], keep="last")` (lines 202, 212, 222). -/
def dedupLast : List TRow → List TRow
  | [] => []
  | r :: rest =>
      if rest.any (fun x => x.lan = r.lan) then dedupLast rest
      else r :: dedupLast rest

/-- Numeric cleaning of the monetary columns (lines 272-296). -/
def cleanRow (r : TRow) : ARow :=
  ⟨r.lan, cleanNumeric r.pastDue, r.classification, r.endoDate, r.dateReferred, r.oldestDue⟩

/-- Load, deduplicate and clean one input table. -/
def loadClean (t : List TRow) : List ARow := (dedupLast (t.map loadRow)).map cleanRow

/-- Refreshing step (lines 299-324): the left join on `LAN` overwrites the
refreshed columns from today's TAD row when the key matches, and the
trailing `fillna(0)` zeroes `PAST DUE` for unmatched keys. -/
def refresh (tc : List ARow) (r : ARow) : ARow :=
  match tc.find? (fun t => t.lan = r.lan) with
  | some t => { r with pastDue := t.pastDue }
  | none => { r with pastDue := 0 }

/-- All keys of yesterday's active list (line 336). -/
def yLans (yesterday : List TRow) : List String := (loadClean yesterday).map (·.lan)

/-- Keys of today's TAD rows with positive past due (lines 321, 337). -/
def tPosLans (today : List TRow) : List String :=
  ((loadClean today).filter (fun r => 0 < r.pastDue)).map (·.lan)

/-- `revive_lans = tad_pastdue_lans - yesterday_all_lans` (line 338). -/
def reviveKeys (yesterday today : List TRow) : List String :=
  (tPosLans today).filter (fun l => !(l ∈ yLans yesterday))

/-- Keys new relative to yesterday's full key set (lines 461-462). -/
def newLans (yesterday today : List TRow) : List String :=
  ((loadClean today).map (·.lan)).filter (fun l => !(l ∈ yLans yesterday))

/-- The invalid date sentinels of the revival lookup (line 369). -/
def invalidDates : List String :=
  ["0", "0/00/0000", "00/00/00", "NaT", "nan", "None", "", "1970-01-01",
   "01/01/1970", "1/1/1970"]

/-- Masterlist backfill for one revive row (lines 357-423): replace an
invalid `DATE REFERRED` by the masterlist value, apply the oldest-due-date
maximum rule, and leave the non-missing fields alone. -/
def backfillML (ml : List MRow) (r : ARow) : ARow :=
  match (normML ml).find? (fun m => m.lan = r.lan) with
  | none => r
  | some m =>
      { r with
          dateReferred :=
            if trimStr r.dateReferred ∈ invalidDates then (m.dateReferred.getD "")
            else r.dateReferred
          oldestDue :=
            match reviveOldest r.oldestDue m.oldestDue with
            | some q => Cell.num q
            | none => Cell.na }

/-- Flexible date formatting of the revive block (lines 425-431). -/
def formatARowFlex (r : ARow) : ARow :=
  { r with endoDate := fmtCellFlex r.endoDate, dateReferred := fmtCellFlex r.dateReferred }

/-- Strict date formatting of `format_dates` (lines 127-137, 447-448). -/
def formatARowStrict (r : ARow) : ARow :=
  { r with endoDate := fmtCellStrict r.endoDate, dateReferred := fmtCellStrict r.dateReferred }

/-- One revived account (lines 345-443): today's TAD row stamped `REENDO`
with `ENDO DATE` = run date, masterlist-backfilled, date-formatted. -/
def mkRevive (ml : List MRow) (todayStr : String) (r : ARow) : ARow :=
  formatARowFlex (backfillML ml { r with classification := "REENDO", endoDate := todayStr })

/-- The emitted partitions of the daily flow. -/
structure DailyOut where
  finalActive : List ARow
  pullout : List ARow
  forUpdate : List ARow
  forUpload : List ARow
  revive : List ARow
deriving Repr

/-- The refreshed active list (lines 299-324). -/
def updatedActive (yesterday today : List TRow) : List ARow :=
  (loadClean yesterday).map (refresh (loadClean today))

/-- `pullout_accounts` (lines 329, 448, 454). -/
def pulloutRows (yesterday today : List TRow) : List ARow :=
  ((updatedActive yesterday today).filter (fun r => r.pastDue = 0)).map formatARowStrict

/-- The surviving (positive past due) part of the refreshed list (line 333). -/
def activeRows (yesterday today : List TRow) : List ARow :=
  (updatedActive yesterday today).filter (fun r => 0 < r.pastDue)

/-- The revived accounts as appended to the active list (lines 340-443). -/
def reviveRows (yesterday today : List TRow) (ml : List MRow) (todayStr : String) : List ARow :=
  (((loadClean today).filter (fun r => r.lan ∈ reviveKeys yesterday today)).map
    (mkRevive ml todayStr)).map formatARowStrict

/-- `final_active_list` (lines 440-453). -/
def finalActiveRows (yesterday today : List TRow) (ml : List MRow) (todayStr : String) :
    List ARow :=
  (activeRows yesterday today).map formatARowStrict ++ reviveRows yesterday today ml todayStr

/-- `for_update_accounts` (lines 456-458). -/
def forUpdateRows (yesterday today : List TRow) (ml : List MRow) (todayStr : String) :
    List ARow :=
  (finalActiveRows yesterday today ml todayStr).filter
    (fun r => !(r.lan ∈ reviveKeys yesterday today))

/-- `for_upload_accounts` (lines 460-464). -/
def forUploadRows (yesterday today : List TRow) (ml : List MRow) (todayStr : String) :
    List ARow :=
  (finalActiveRows yesterday today ml todayStr).filter
    (fun r => r.lan ∈ newLans yesterday today)

/-- The daily delta-reconciliation pipeline (lines 243-476). -/
def dailyFlow (yesterday today : List TRow) (ml : List MRow) (todayStr : String) : DailyOut :=
  ⟨finalActiveRows yesterday today ml todayStr,
   pulloutRows yesterday today,
   forUpdateRows yesterday today ml todayStr,
   forUploadRows yesterday today ml todayStr,
   reviveRows yesterday today ml todayStr⟩

/-! ### Header Alignment Engine (src/utils/header_alignment.py)

A table is a list of named columns.  `STANDARD_HEADERS` is transcribed as
Python evaluates it: the source list misses the comma between `"CH CODE"`
and `"NAME"` (lines 8-9), so string-literal concatenation fuses them into
the single entry `"CH CODENAME"`, leaving 17 entries. -/

/-- A table column: name and cell values (as strings). -/
abbrev Column := String × List String

/-- `STANDARD_HEADERS` as evaluated by Python (note the fused
`"CH CODENAME"` entry produced by the missing comma in the source). -/
def STANDARD_HEADERS : List String :=
  ["LAN", "CH CODENAME", "CTL4", "PAST DUE", "PAYOFF AMOUNT", "PRINCIPAL",
   "LPC", "ADA SHORTAGE", "EMAIL", "MOBILE_ALS", "MOBILE_ALFES",
   "PRIMARY_NO_ALS", "BUS_NO_ALS", "LANDLINE_NO_ALS", "DATE REFERRED",
   "UNIT", "DPD"]

/-- `ALIGNMENT_MAP` (lines 30-49): canonical field name to accepted input
synonyms.  Note `"LAN"` appears as a synonym of both `"LAN"` and
`"CH CODE"`. -/
def ALIGNMENT_MAP : List (String × List String) :=
  [("LAN", ["LAN", "ACCOUNT NUMBER", "ACCTNUM"]),
   ("CH CODE", ["LAN", "ch code"]),
   ("NAME", ["NAME", "DEBTOR NAME", "BORROWER NAME"]),
   ("CTL4", ["CTL4"]),
   ("PAST DUE", ["PAST DUE", "OVERDUE AMOUNT"]),
   ("PAYOFF AMOUNT", ["PAYOFF AMOUNT", "PAYOFF AMT"]),
   ("PRINCIPAL", ["PRINCIPAL", "PRINCIPAL AMOUNT"]),
   ("LPC", ["LPC", "LOAN PRINCIPAL CONTRACTED"]),
   ("ADA SHORTAGE", ["ADA SHORTAGE", "ADA SHORT"]),
   ("EMAIL", ["EMAIL", "EMAIL_ALS", "BORROWER EMAIL"]),
   ("MOBILE_ALS", ["MOBILE_ALS", "MOBILE NO ALS", "MOBILE NUMBER"]),
   ("MOBILE_ALFES", ["MOBILE_ALFES", "MOBILE NO ALFES"]),
   ("PRIMARY_NO_ALS", ["PRIMARY_NO_ALS", "PRIMARY NO"]),
   ("BUS_NO_ALS", ["BUS_NO_ALS", "BUSINESS NO"]),
   ("LANDLINE_NO_ALS", ["LANDLINE_NO_ALS", "LANDLINE NO ALFES", "LANDLINE"]),
   ("DATE REFERRED", ["DATE REFERRED", "REFERRAL DATE"]),
   ("UNIT", ["UNIT", "SHORT DESCRIPTION", "UNIT DESCRIPTION"]),
   ("DPD", ["DPD", "DAYS PAST DUE"])]

/-- `normalize_column_names` (lines 52-63). -/
def normalizeCols (t : List Column) : List Column :=
  t.map (fun c => (upperStr c.1, c.2))

/-- `find_column_in_dataframe` (lines 66-84): first input column whose
normalized name is among the normalized synonyms. -/
def findColumn (t : List Column) (possible : List String) : Option Column :=
  t.find? (fun c => upperStr c.1 ∈ possible.map upperStr)

/-- Row count of the input table. -/
def nRows (t : List Column) : Nat := ((t.head?).map (fun c => c.2.length)).getD 0

/-- `format_date_column` on `DATE REFERRED` values (lines 87-129, reduced to
its effect: reparse each value, reformat, blank out failures).  The source
re-renders with an unpadded month; the month field therefore goes through
`natChars` directly. -/
def fmtDateRefValue (s : String) : String :=
  match parseFlexDate s with
  | some dt => ⟨natChars dt.m ++ '/' :: (pad2 dt.d ++ '/' :: pad4 dt.y)⟩
  | none => ""

/-- The synonym list of a standard header (`mapping.get(standard_col, [])`,
line 154). -/
def synonymsFor (std : String) : List String :=
  ((ALIGNMENT_MAP.find? (fun p => p.1 = std)).map (·.2)).getD []

/-- One output column of `align_headers`: copy the first matching input
column, else fill with empty strings; the `DATE REFERRED` column is then
date-formatted. -/
def alignCol (t : List Column) (std : String) : Column :=
  match findColumn (normalizeCols t) (synonymsFor std) with
  | some c =>
      if std = "DATE REFERRED" then (std, c.2.map fmtDateRefValue) else (std, c.2)
  | none =>
      if std = "DATE REFERRED" then
        (std, (List.replicate (nRows t) "").map fmtDateRefValue)
      else (std, List.replicate (nRows t) "")

/-- `align_headers` (lines 132-172). -/
def alignHeaders (t : List Column) : List Column :=
  STANDARD_HEADERS.map (alignCol t)

/-! ### Daily-flow structural lemmas -/

/-- Key list of a working table. -/
def keysA (l : List ARow) : List String := l.map (·.lan)

/-! ### Theorems -/

theorem mem_dropWhile {α : Type _} {p : α → Bool} {l : List α} {a : α}
    (h : a ∈ l.dropWhile p) : a ∈ l := by
  induction l with
  | nil => simp at h
  | cons x xs ih =>
    by_cases hx : p x
    · simp only [List.dropWhile_cons, hx, if_true] at h
      exact List.mem_cons_of_mem _ (ih h)
    · simp only [List.dropWhile_cons, hx] at h
      simpa using h

theorem mem_trimChars {cs : List Char} {c : Char} (h : c ∈ trimChars cs) : c ∈ cs := by
  unfold trimChars at h
  rw [List.mem_reverse] at h
  have h1 := mem_dropWhile h
  rw [List.mem_reverse] at h1
  exact mem_dropWhile h1

theorem parsePosQ_nonneg {cs : List Char} {q : ℚ} (h : parsePosQ cs = some q) : 0 ≤ q := by
  unfold parsePosQ at h
  split at h
  · split at h
    · exact absurd h (by simp)
    · simp only [Option.some.injEq] at h
      subst h
      positivity
  · split at h
    · exact absurd h (by simp)
    · split at h
      · simp only [Option.some.injEq] at h
        subst h
        positivity
      · exact absurd h (by simp)
  · exact absurd h (by simp)

theorem stripMoney_no_dash (cs : List Char) : '-' ∉ stripMoneyChars cs := by
  intro hmem
  have h1 := mem_trimChars hmem
  have h2 := List.of_mem_filter h1
  simp at h2

theorem parseQ_nonneg_of_no_dash {cs : List Char} {q : ℚ}
    (hd : '-' ∉ cs) (h : parseQ cs = some q) : 0 ≤ q := by
  unfold parseQ at h
  split at h
  · exact absurd (List.mem_cons_self _ _) hd
  · exact parsePosQ_nonneg h
  · exact parsePosQ_nonneg h

/-- C10 key fact: `clean_numeric` never produces a negative value. -/
theorem cleanNumeric_nonneg (c : Cell) : 0 ≤ cleanNumeric c := by
  cases c with
  | na => norm_num [cleanNumeric]
  | num q => simp [cleanNumeric]
  | str s =>
    show (0 : ℚ) ≤ (match parseQ (stripMoneyChars s.data) with | some q => q | none => (0 : ℚ))
    split
    · next q h => exact parseQ_nonneg_of_no_dash (stripMoney_no_dash s.data) h
    · norm_num

/-! ### Round-trip facts about date formatting and parsing -/

theorem digitVal_digitChar {d : Nat} (h : d < 10) : digitVal (Nat.digitChar d) = d := by
  interval_cases d <;> rfl

theorem isDigit_digitChar {d : Nat} (h : d < 10) : (Nat.digitChar d).isDigit = true := by
  interval_cases d <;> decide

theorem valChars_append (cs ds : List Char) :
    valChars (cs ++ ds) = ds.foldl (fun a c => 10 * a + digitVal c) (valChars cs) := by
  unfold valChars
  exact List.foldl_append _ _ _ _

theorem valChars_digits (ds : List Nat) (h : ∀ x ∈ ds, x < 10) :
    valChars (ds.reverse.map Nat.digitChar) = Nat.ofDigits 10 ds := by
  induction ds with
  | nil => rfl
  | cons d tl ih =>
    have hd : d < 10 := h d (List.mem_cons_self _ _)
    have htl : ∀ x ∈ tl, x < 10 := fun x hx => h x (List.mem_cons_of_mem _ hx)
    rw [List.reverse_cons, List.map_append, valChars_append]
    simp only [List.map_cons, List.map_nil, List.foldl_cons, List.foldl_nil]
    rw [ih htl, digitVal_digitChar hd, Nat.ofDigits_cons]
    ring

theorem natCharsAux_zero (fuel : Nat) : natCharsAux fuel 0 = [] := by
  cases fuel <;> rfl

theorem natCharsAux_eq_digits :
    ∀ fuel n, n ≠ 0 → n ≤ fuel →
      natCharsAux fuel n = ((Nat.digits 10 n).reverse.map Nat.digitChar) := by
  intro fuel
  induction fuel with
  | zero => intro n hn hle; omega
  | succ f ih =>
    intro n hn hle
    show (if n = 0 then [] else natCharsAux f (n / 10) ++ [Nat.digitChar (n % 10)]) = _
    rw [if_neg hn,
        Nat.digits_def' (by norm_num : 1 < 10) (Nat.pos_of_ne_zero hn),
        List.reverse_cons, List.map_append, List.map_cons, List.map_nil]
    by_cases h10 : n / 10 = 0
    · rw [h10, natCharsAux_zero, Nat.digits_zero]
      rfl
    · have hlt : n / 10 < n := Nat.div_lt_self (Nat.pos_of_ne_zero hn) (by norm_num)
      rw [ih (n / 10) h10 (by omega)]

theorem natChars_eq (n : Nat) :
    natChars n = if n = 0 then ['0'] else ((Nat.digits 10 n).reverse.map Nat.digitChar) := by
  unfold natChars
  by_cases h : n = 0
  · simp [h]
  · simp only [h, if_false]
    exact natCharsAux_eq_digits n n h le_rfl

theorem valChars_natChars (n : Nat) : valChars (natChars n) = n := by
  rw [natChars_eq]
  by_cases h : n = 0
  · subst h; rfl
  · simp only [h, if_false]
    rw [valChars_digits _ (fun x hx => Nat.digits_lt_base (by norm_num) hx)]
    exact Nat.ofDigits_digits 10 n

theorem natChars_all_digit (n : Nat) : ∀ c ∈ natChars n, c.isDigit = true := by
  rw [natChars_eq]
  by_cases h : n = 0
  · subst h; intro c hc; simp at hc; subst hc; decide
  · simp only [h, if_false]
    intro c hc
    rw [List.mem_map] at hc
    obtain ⟨d, hd, rfl⟩ := hc
    rw [List.mem_reverse] at hd
    exact isDigit_digitChar (Nat.digits_lt_base (by norm_num) hd)

theorem natChars_ne_nil (n : Nat) : natChars n ≠ [] := by
  rw [natChars_eq]
  by_cases h : n = 0
  · simp [h]
  · simp only [h, if_false, ne_eq, List.map_eq_nil_iff, List.reverse_eq_nil_iff]
    exact (Nat.digits_ne_nil_iff_ne_zero).mpr h

theorem valChars_leading_zeros (k : Nat) (cs : List Char) :
    valChars (List.replicate k '0' ++ cs) = valChars cs := by
  induction k with
  | zero => rfl
  | succ j ih =>
    rw [List.replicate_succ, List.cons_append]
    show valChars (('0' :: (List.replicate j '0' ++ cs))) = valChars cs
    unfold valChars at *
    simp only [List.foldl_cons]
    convert ih using 2

theorem padZeros_all_digit (k : Nat) (cs : List Char) (h : ∀ c ∈ cs, c.isDigit = true) :
    ∀ c ∈ padZeros k cs, c.isDigit = true := by
  intro c hc
  unfold padZeros at hc
  rw [List.mem_append] at hc
  cases hc with
  | inl hl => rw [List.eq_of_mem_replicate hl]; decide
  | inr hr => exact h c hr

theorem padZeros_ne_nil (k : Nat) (cs : List Char) (h : cs ≠ []) : padZeros k cs ≠ [] := by
  unfold padZeros
  intro hcon
  rw [List.append_eq_nil] at hcon
  exact h hcon.2

theorem pad2_all_digit (n : Nat) : ∀ c ∈ pad2 n, c.isDigit = true :=
  padZeros_all_digit _ _ (natChars_all_digit n)

theorem pad4_all_digit (n : Nat) : ∀ c ∈ pad4 n, c.isDigit = true :=
  padZeros_all_digit _ _ (natChars_all_digit n)

theorem parseNat_padZeros (k n : Nat) : parseNatChars (padZeros k (natChars n)) = some n := by
  unfold parseNatChars
  rw [if_pos]
  · congr 1
    unfold padZeros
    rw [valChars_leading_zeros, valChars_natChars]
  · exact ⟨padZeros_ne_nil _ _ (natChars_ne_nil n),
      padZeros_all_digit _ _ (natChars_all_digit n)⟩

theorem parseNat_pad2 (n : Nat) : parseNatChars (pad2 n) = some n := parseNat_padZeros 2 n

theorem parseNat_pad4 (n : Nat) : parseNatChars (pad4 n) = some n := parseNat_padZeros 4 n

theorem not_sep_of_digit {sep : Char} (hsep : sep.isDigit = false)
    {cs : List Char} (h : ∀ c ∈ cs, c.isDigit = true) : sep ∉ cs := by
  intro hmem
  rw [h sep hmem] at hsep
  exact Bool.noConfusion hsep

theorem splitOnChar_no_sep {sep : Char} {cs : List Char} (h : sep ∉ cs) :
    splitOnChar sep cs = [cs] := by
  induction cs with
  | nil => rfl
  | cons c rest ih =>
    have hc : ¬(c = sep) := fun hcc => h (hcc ▸ List.mem_cons_self _ _)
    have hrest : sep ∉ rest := fun hm => h (List.mem_cons_of_mem _ hm)
    show (if c = sep then _ else _) = _
    rw [if_neg hc, ih hrest]
    rfl

theorem splitOnChar_append {sep : Char} {a : List Char} (b : List Char) (h : sep ∉ a) :
    splitOnChar sep (a ++ sep :: b) = a :: splitOnChar sep b := by
  induction a with
  | nil =>
    show (if sep = sep then _ else _) = _
    rw [if_pos rfl]
  | cons c rest ih =>
    have hc : ¬(c = sep) := fun hcc => h (hcc ▸ List.mem_cons_self _ _)
    have hrest : sep ∉ rest := fun hm => h (List.mem_cons_of_mem _ hm)
    rw [List.cons_append]
    show (if c = sep then _ else _) = _
    rw [if_neg hc, ih hrest]
    rfl

theorem slash_not_digit : ('/').isDigit = false := by decide

/-- Splitting the canonical `%m/%d/%Y` rendering recovers the three fields. -/
theorem splitOnChar_fmtMDY (dt : Date) :
    splitOnChar '/' (fmtMDYChars dt) = [pad2 dt.m, pad2 dt.d, pad4 dt.y] := by
  unfold fmtMDYChars
  rw [splitOnChar_append _ (not_sep_of_digit slash_not_digit (pad2_all_digit _)),
      splitOnChar_append _ (not_sep_of_digit slash_not_digit (pad2_all_digit _)),
      splitOnChar_no_sep (not_sep_of_digit slash_not_digit (pad4_all_digit _))]

/-- Round trip: strict parsing inverts `strftime("%m/%d/%Y")` on valid dates. -/
theorem parseStrict_fmtMDY {dt : Date} (h : ValidDate dt) :
    parseStrictMDY (fmtMDY dt) = some dt := by
  unfold parseStrictMDY threeFields
  rw [show (fmtMDY dt).data = fmtMDYChars dt from rfl, splitOnChar_fmtMDY dt]
  dsimp only
  rw [parseNat_pad2, parseNat_pad2, parseNat_pad4]
  dsimp only
  unfold mkDate
  rw [if_pos h]

theorem slash_mem_fmtMDY (dt : Date) : '/' ∈ (fmtMDY dt).data := by
  rw [show (fmtMDY dt).data = fmtMDYChars dt from rfl]
  unfold fmtMDYChars
  rw [List.mem_append]
  exact Or.inr (List.mem_cons_self _ _)

/-- Round trip for the flexible parser as well. -/
theorem parseFlex_fmtMDY {dt : Date} (h : ValidDate dt) :
    parseFlexDate (fmtMDY dt) = some dt := by
  unfold parseFlexDate
  rw [if_pos (slash_mem_fmtMDY dt)]
  exact parseStrict_fmtMDY h

theorem fmtMDY_ne_empty (dt : Date) : fmtMDY dt ≠ "" := by
  intro hcon
  have hdata : fmtMDYChars dt = [] := congrArg String.data hcon
  unfold fmtMDYChars at hdata
  rw [List.append_eq_nil] at hdata
  exact List.noConfusion hdata.2

/-- Strict parsing only returns structurally valid dates. -/
theorem parseStrict_valid {s : String} {dt : Date} (h : parseStrictMDY s = some dt) :
    ValidDate dt := by
  unfold parseStrictMDY at h
  split at h
  · next m d y heq =>
    unfold mkDate at h
    split at h
    · next hv => cases h; exact hv
    · exact Option.noConfusion h
  · exact Option.noConfusion h

/-- Flexible parsing only returns structurally valid dates. -/
theorem parseFlex_valid {s : String} {dt : Date} (h : parseFlexDate s = some dt) :
    ValidDate dt := by
  unfold parseFlexDate at h
  split at h
  · exact parseStrict_valid h
  · split at h
    · split at h
      · next y m d heq =>
        unfold mkDate at h
        split at h
        · next hv => cases h; exact hv
        · exact Option.noConfusion h
      · exact Option.noConfusion h
    · exact Option.noConfusion h

/-- `format_dates` (flexible) is the identity on canonical date strings. -/
theorem fmtCellFlex_fmtMDY {dt : Date} (h : ValidDate dt) :
    fmtCellFlex (fmtMDY dt) = fmtMDY dt := by
  unfold fmtCellFlex
  rw [parseFlex_fmtMDY h]

/-- `format_dates` (strict) is the identity on canonical date strings. -/
theorem fmtCellStrict_fmtMDY {dt : Date} (h : ValidDate dt) :
    fmtCellStrict (fmtMDY dt) = fmtMDY dt := by
  unfold fmtCellStrict
  rw [parseStrict_fmtMDY h]

/-! ### Claim theorems -/

theorem daysInMonth_pos (y m : Nat) : 1 ≤ daysInMonth y m := by
  unfold daysInMonth
  split
  · split <;> norm_num
  · split <;> norm_num

theorem addOneMonth_valid {dt : Date} (h : ValidDate dt) : ValidDate (addOneMonth dt) := by
  obtain ⟨hm1, hm2, hd1, hd2⟩ := h
  unfold addOneMonth ValidDate
  by_cases h12 : dt.m = 12
  · simp only [h12, if_true]
    exact ⟨by norm_num, by norm_num, le_min hd1 (daysInMonth_pos _ _), min_le_right _ _⟩
  · simp only [h12, if_false]
    exact ⟨by omega, by omega, le_min hd1 (daysInMonth_pos _ _), min_le_right _ _⟩

/-- C1: for every input record and every masterlist, the weekly
classification step assigns exactly one of `REENDO` / `NEW ENDO`, with
`REENDO` exactly when the normalized key is in the masterlist key set; no
record is left unclassified. -/
theorem c1_classification_total (rows : List WRow) (ml : List MRow) (todayStr : String) :
    ∀ r ∈ weeklyClassify rows ml todayStr,
      (r.classification = "REENDO" ∨ r.classification = "NEW ENDO") ∧
      ¬(r.classification = "REENDO" ∧ r.classification = "NEW ENDO") ∧
      (r.classification = "REENDO" ↔ r.lan ∈ mlKeys ml) := by
  intro r hr
  unfold weeklyClassify at hr
  rw [List.mem_map] at hr
  obtain ⟨r0, hr0, rfl⟩ := hr
  dsimp only
  by_cases hmem : normLan r0.lan ∈ mlKeys ml
  · rw [if_pos hmem]
    refine ⟨Or.inl rfl, ?_, ?_⟩
    · intro hcon
      exact absurd hcon.2 (by decide)
    · simp [hmem]
  · rw [if_neg hmem]
    refine ⟨Or.inr rfl, ?_, ?_⟩
    · intro hcon
      exact absurd hcon.1 (by decide)
    · constructor
      · intro hcon
        exact absurd hcon (by decide)
      · intro hcon
        exact absurd hcon hmem

/-- C1 witness: a concrete record against an empty masterlist is classified,
and classified `NEW ENDO`. -/
theorem c1_witness :
    ((WRow.mk "L1" "NEW ENDO" "01/02/2026" "01/02/2026").classification = "REENDO" ∨
      (WRow.mk "L1" "NEW ENDO" "01/02/2026" "01/02/2026").classification = "NEW ENDO") ∧
    ¬((WRow.mk "L1" "NEW ENDO" "01/02/2026" "01/02/2026").classification = "REENDO" ∧
      (WRow.mk "L1" "NEW ENDO" "01/02/2026" "01/02/2026").classification = "NEW ENDO") ∧
    ((WRow.mk "L1" "NEW ENDO" "01/02/2026" "01/02/2026").classification = "REENDO" ↔
      (WRow.mk "L1" "NEW ENDO" "01/02/2026" "01/02/2026").lan ∈ mlKeys []) :=
  c1_classification_total [⟨"L1", "x", "y", "z"⟩] [] "01/02/2026" _ (by decide)

/-- C2 counterexample: a masterlist entry for key `L1` storing the sentinel
`00/00/00` does NOT make the incoming `REENDO` record fall back to the run
date — the sentinel is passed through verbatim. -/
theorem c2_counterexample :
    weeklyClassify [⟨"L1", "", "", ""⟩] [⟨"L1", some "00/00/00", none⟩] "10/12/2026" =
      [⟨"L1", "REENDO", "10/12/2026", "00/00/00"⟩] ∧
    ("00/00/00" : String) ≠ "10/12/2026" := by
  exact ⟨by decide, by decide⟩

/-- C2 (amended): a `REENDO` record falls back to the run date exactly when
the masterlist entry is missing, NaN, or blank; a stored non-blank value is
kept — reformatted when it parses as a date, and passed through verbatim
(not replaced by the run date) when it is unparseable, as sentinels like
`00/00/00` are. -/
theorem c2_sentinel_passthrough (lan todayStr : String) (ml : List MRow) :
    (ml.find? (fun x => x.lan = lan) = none →
        getDateReferred "REENDO" lan ml todayStr = todayStr) ∧
    (∀ m, ml.find? (fun x => x.lan = lan) = some m → m.dateReferred = none →
        getDateReferred "REENDO" lan ml todayStr = todayStr) ∧
    (∀ m s, ml.find? (fun x => x.lan = lan) = some m → m.dateReferred = some s →
        s.data.all Char.isWhitespace →
        getDateReferred "REENDO" lan ml todayStr = todayStr) ∧
    (∀ m s, ml.find? (fun x => x.lan = lan) = some m → m.dateReferred = some s →
        ¬(s.data.all Char.isWhitespace = true) → parseFlexDate s = none →
        getDateReferred "REENDO" lan ml todayStr = s) ∧
    (∀ m s dt, ml.find? (fun x => x.lan = lan) = some m → m.dateReferred = some s →
        ¬(s.data.all Char.isWhitespace = true) → parseFlexDate s = some dt →
        getDateReferred "REENDO" lan ml todayStr = fmtMDY dt) := by
  refine ⟨?_, ?_, ?_, ?_, ?_⟩
  · intro hfind
    unfold getDateReferred
    rw [if_neg (by decide), hfind]
  · intro m hfind hdr
    unfold getDateReferred
    rw [if_neg (by decide), hfind]
    dsimp only
    rw [hdr]
  · intro m s hfind hdr hws
    unfold getDateReferred
    rw [if_neg (by decide), hfind]
    dsimp only
    rw [hdr]
    dsimp only
    rw [if_pos hws]
  · intro m s hfind hdr hws hparse
    unfold getDateReferred
    rw [if_neg (by decide), hfind]
    dsimp only
    rw [hdr]
    dsimp only
    rw [if_neg hws, hparse]
  · intro m s dt hfind hdr hws hparse
    unfold getDateReferred
    rw [if_neg (by decide), hfind]
    dsimp only
    rw [hdr]
    dsimp only
    rw [if_neg hws, hparse]

/-- C2 witness: the passthrough case of the amended claim at the concrete
sentinel `00/00/00`. -/
theorem c2_witness :
    getDateReferred "REENDO" "L1" [⟨"L1", some "00/00/00", none⟩] "12/31/2026" = "00/00/00" :=
  (c2_sentinel_passthrough "L1" "12/31/2026" [⟨"L1", some "00/00/00", none⟩]).2.2.2.1
    ⟨"L1", some "00/00/00", none⟩ "00/00/00" rfl rfl (by decide) rfl

/-- C7: for a parseable oldest due date the derived due day is its
day-of-month and the derived next due date is the date advanced one calendar
month (same day, or the last valid day of the target month when the day
overflows); an unparseable oldest due date propagates as empty in both
derived fields. -/
theorem c7_due_dates (s : String) :
    (∀ dt, parseFlexDate s = some dt →
      computeDueDay s = some dt.d ∧
      computeNextDue s = some (addOneMonth dt) ∧
      (if dt.m = 12 then (addOneMonth dt).y = dt.y + 1 ∧ (addOneMonth dt).m = 1
       else (addOneMonth dt).y = dt.y ∧ (addOneMonth dt).m = dt.m + 1) ∧
      ((addOneMonth dt).d = dt.d ∨
        ((addOneMonth dt).d = daysInMonth (addOneMonth dt).y (addOneMonth dt).m ∧
          daysInMonth (addOneMonth dt).y (addOneMonth dt).m < dt.d)) ∧
      ValidDate (addOneMonth dt)) ∧
    (parseFlexDate s = none → computeDueDay s = none ∧ computeNextDue s = none) := by
  constructor
  · intro dt hparse
    have hv : ValidDate dt := parseFlex_valid hparse
    obtain ⟨hm1, hm2, hd1, hd2⟩ := hv
    refine ⟨?_, ?_, ?_, ?_, ?_⟩
    · unfold computeDueDay
      rw [hparse]
      rfl
    · unfold computeNextDue
      rw [hparse]
      rfl
    · unfold addOneMonth
      by_cases h12 : dt.m = 12
      · simp [h12]
      · simp [h12]
    · unfold addOneMonth
      by_cases h12 : dt.m = 12
      · simp only [h12, if_true]
        rcases le_or_lt dt.d (daysInMonth (dt.y + 1) 1) with hle | hlt
        · exact Or.inl (min_eq_left hle)
        · exact Or.inr ⟨min_eq_right hlt.le, hlt⟩
      · simp only [h12, if_false]
        rcases le_or_lt dt.d (daysInMonth dt.y (dt.m + 1)) with hle | hlt
        · exact Or.inl (min_eq_left hle)
        · exact Or.inr ⟨min_eq_right hlt.le, hlt⟩
    · exact addOneMonth_valid ⟨hm1, hm2, hd1, hd2⟩
  · intro hparse
    constructor
    · unfold computeDueDay
      rw [hparse]
      rfl
    · unfold computeNextDue
      rw [hparse]
      rfl

/-- C7 witness (Scenario F): `01/31/2024` yields due day 31 and next due
date `02/29/2024`, the leap-year spillover. -/
theorem c7_witness :
    computeDueDay "01/31/2024" = some 31 ∧
    computeNextDue "01/31/2024" = some (addOneMonth ⟨2024, 1, 31⟩) ∧
    addOneMonth ⟨2024, 1, 31⟩ = ⟨2024, 2, 29⟩ :=
  ⟨((c7_due_dates "01/31/2024").1 ⟨2024, 1, 31⟩ rfl).1,
   ((c7_due_dates "01/31/2024").1 ⟨2024, 1, 31⟩ rfl).2.1,
   by decide⟩

theorem getDateReferred_cases (cls lan : String) (ml : List MRow) (todayStr : String) :
    getDateReferred cls lan ml todayStr = todayStr ∨
    (∃ dt, ValidDate dt ∧ getDateReferred cls lan ml todayStr = fmtMDY dt) ∨
    parseFlexDate (getDateReferred cls lan ml todayStr) = none := by
  unfold getDateReferred
  by_cases hc : cls = "NEW ENDO"
  · rw [if_pos hc]
    exact Or.inl rfl
  · rw [if_neg hc]
    cases hfind : ml.find? (fun m => m.lan = lan) with
    | none => exact Or.inl rfl
    | some m =>
      dsimp only
      cases hdr : m.dateReferred with
      | none => exact Or.inl rfl
      | some s =>
        dsimp only
        by_cases hws : s.data.all Char.isWhitespace
        · rw [if_pos hws]
          exact Or.inl rfl
        · rw [if_neg hws]
          cases hparse : parseFlexDate s with
          | none =>
            refine Or.inr (Or.inr ?_)
            exact hparse
          | some dt =>
            exact Or.inr (Or.inl ⟨dt, parseFlex_valid hparse, rfl⟩)

theorem weeklyClassify_fields {rows : List WRow} {ml : List MRow} {todayStr : String}
    {r : WRow} (hr : r ∈ weeklyClassify rows ml todayStr) :
    r.endoDate = todayStr ∧
    r.dateReferred = getDateReferred r.classification r.lan (normML ml) todayStr := by
  unfold weeklyClassify at hr
  rw [List.mem_map] at hr
  obtain ⟨r0, _, rfl⟩ := hr
  exact ⟨rfl, rfl⟩

/-- C3: if any `REENDO` record ends up with `DATE REFERRED` equal to
`ENDO DATE`, the weekly run halts with an error that is exactly the
non-empty set of offending records and emits nothing; conversely, every
record of an emitted active file that is classified `REENDO` satisfies
`DATE REFERRED ≠ ENDO DATE`. -/
theorem c3_validation_gate (rows : List WRow) (ml : List MRow) (todayStr : String)
    (t : Date) (ht : ValidDate t) (hts : todayStr = fmtMDY t) :
    (∀ e, weeklyProcess rows ml todayStr = .error e →
        e ≠ [] ∧ ∀ r ∈ e, r.classification = "REENDO" ∧ r.dateReferred = r.endoDate) ∧
    (∀ out, weeklyProcess rows ml todayStr = .ok out →
        ∀ r ∈ out, r.classification = "REENDO" → r.dateReferred ≠ r.endoDate) := by
  constructor
  · intro e he
    unfold weeklyProcess at he
    split at he
    · exact Except.noConfusion he
    · next hne =>
      have he2 : (weeklyClassify rows ml todayStr).filter isSuspicious = e :=
        Except.error.inj he
      constructor
      · intro hcon
        rw [hcon] at he2
        rw [he2] at hne
        exact hne rfl
      · intro r hr
        rw [← he2] at hr
        have hsus := List.of_mem_filter hr
        unfold isSuspicious at hsus
        rw [Bool.and_eq_true, decide_eq_true_eq, decide_eq_true_eq] at hsus
        exact hsus
  · intro out hout r hr hcls
    unfold weeklyProcess at hout
    split at hout
    · next hemp =>
      have hout2 : (weeklyClassify rows ml todayStr).map formatWRow = out :=
        Except.ok.inj hout
      rw [← hout2] at hr
      rw [List.mem_map] at hr
      obtain ⟨r0, hr0, rfl⟩ := hr
      have hcls0 : r0.classification = "REENDO" := hcls
      have hne : r0.dateReferred ≠ r0.endoDate := by
        intro heq
        have hsus : isSuspicious r0 = true := by
          unfold isSuspicious
          rw [Bool.and_eq_true, decide_eq_true_eq, decide_eq_true_eq]
          exact ⟨hcls0, heq⟩
        have hmem : r0 ∈ (weeklyClassify rows ml todayStr).filter isSuspicious :=
          List.mem_filter.mpr ⟨hr0, hsus⟩
        rw [List.isEmpty_iff] at hemp
        rw [hemp] at hmem
        exact List.not_mem_nil r0 hmem
      obtain ⟨hendo, hdr⟩ := weeklyClassify_fields hr0
      show fmtCellFlex r0.dateReferred ≠ fmtCellFlex r0.endoDate
      rw [hendo, hts, fmtCellFlex_fmtMDY ht]
      rcases getDateReferred_cases r0.classification r0.lan (normML ml) todayStr with
        hcase | ⟨dt, hvdt, hcase⟩ | hcase
      · rw [← hdr] at hcase
        rw [hcase, hts] at hne
        exact absurd rfl (by rw [hendo, hts] at hne; exact hne)
      · rw [← hdr] at hcase
        rw [hcase, fmtCellFlex_fmtMDY hvdt]
        intro heq2
        rw [hcase, hendo, hts] at hne
        exact hne (heq2)
      · rw [← hdr] at hcase
        unfold fmtCellFlex
        rw [hcase]
        exact fun heq2 => fmtMDY_ne_empty t heq2.symm
    · exact Except.noConfusion hout

/-- C3 witness: a concrete run through the validation gate. -/
theorem c3_witness :
    (∀ e, weeklyProcess [⟨"A1", "", "", ""⟩] [] "10/12/2026" = .error e →
        e ≠ [] ∧ ∀ r ∈ e, r.classification = "REENDO" ∧ r.dateReferred = r.endoDate) ∧
    (∀ out, weeklyProcess [⟨"A1", "", "", ""⟩] [] "10/12/2026" = .ok out →
        ∀ r ∈ out, r.classification = "REENDO" → r.dateReferred ≠ r.endoDate) :=
  c3_validation_gate [⟨"A1", "", "", ""⟩] [] "10/12/2026" ⟨2026, 10, 12⟩ (by decide) (by decide)

/-- C6: during revival, when a transaction-source oldest due date and a
numeric masterlist-source value are both available, the value kept is the
maximum of the parsed transaction date and the masterlist serial converted
with the 1899-12-30 epoch offset, before any due-date derivation. -/
theorem c6_max_rule (s : String) (v : ℚ) (dt : Date) (mlv : Option Cell)
    (hparse : parseStrictMDY s = some dt)
    (hml : mlv = some (Cell.num v)) :
    reviveOldest (.str s) mlv =
      some (max ((toSerial dt : Int) : ℚ) (((toSerial ⟨1899, 12, 30⟩ : Int) : ℚ) + v)) := by
  subst hml
  simp only [reviveOldest, cellFloat, excelToTs, Option.some_bind, Option.map_some', hparse]

/-- C6 witness: a concrete revival row with both sources available. -/
theorem c6_witness :
    reviveOldest (.str "03/15/2024") (some (.num 45731)) =
      some (max ((toSerial ⟨2024, 3, 15⟩ : Int) : ℚ)
        (((toSerial ⟨1899, 12, 30⟩ : Int) : ℚ) + 45731)) :=
  c6_max_rule "03/15/2024" 45731 ⟨2024, 3, 15⟩ (some (.num 45731)) rfl rfl

theorem fmtDateRefValue_empty : fmtDateRefValue "" = "" := rfl

/-- C8: for every input table, the aligned output has exactly the standard
header set, in the standard order, and every standard column with no
matching input column is filled with empty strings. -/
theorem c8_alignment (t : List Column) :
    (alignHeaders t).map Prod.fst = STANDARD_HEADERS ∧
    (∀ std ∈ STANDARD_HEADERS,
      findColumn (normalizeCols t) (synonymsFor std) = none →
      (std, List.replicate (nRows t) "") ∈ alignHeaders t) := by
  constructor
  · unfold alignHeaders
    rw [List.map_map]
    have hcongr : ∀ std ∈ STANDARD_HEADERS, (Prod.fst ∘ alignCol t) std = id std := by
      intro std _
      show (alignCol t std).1 = std
      unfold alignCol
      split
      · split <;> rfl
      · split <;> rfl
    rw [List.map_congr_left hcongr, List.map_id]
  · intro std hstd hfind
    have hmem := List.mem_map_of_mem (alignCol t) hstd
    have heq : alignCol t std = (std, List.replicate (nRows t) "") := by
      unfold alignCol
      rw [hfind]
      dsimp only
      by_cases hdr : std = "DATE REFERRED"
      · rw [if_pos hdr, List.map_replicate, fmtDateRefValue_empty]
      · rw [if_neg hdr]
    rw [heq] at hmem
    exact hmem

/-- C8 witness: a table with zero recognized columns still yields the full
standard header set, with the key column filled empty. -/
theorem c8_witness :
    (alignHeaders []).map Prod.fst = STANDARD_HEADERS ∧
    ("LAN", List.replicate (nRows ([] : List Column)) "") ∈ alignHeaders [] :=
  ⟨(c8_alignment []).1, (c8_alignment []).2 "LAN" (by decide) rfl⟩

/-- C9: the source's `STANDARD_HEADERS` list misses a comma, fusing
`"CH CODE"` and `"NAME"` into `"CH CODENAME"`; although the alignment map
documents `"CH CODE"` (with synonym `"LAN"`) and `"NAME"` as standard
columns, an input with a `LAN` column produces an output that has no
`CH CODE` column and no `NAME` column at all — the fused `CH CODENAME`
column exists instead and stays empty. -/
theorem c9_dual_mapping_bug :
    ("CH CODE", ["LAN", "ch code"]) ∈ ALIGNMENT_MAP ∧
    ("NAME", ["NAME", "DEBTOR NAME", "BORROWER NAME"]) ∈ ALIGNMENT_MAP ∧
    (alignHeaders [("LAN", ["X1"])]).map Prod.fst = STANDARD_HEADERS ∧
    "CH CODE" ∉ (alignHeaders [("LAN", ["X1"])]).map Prod.fst ∧
    "NAME" ∉ (alignHeaders [("LAN", ["X1"])]).map Prod.fst ∧
    ("LAN", ["X1"]) ∈ alignHeaders [("LAN", ["X1"])] ∧
    ("CH CODENAME", [""]) ∈ alignHeaders [("LAN", ["X1"])] := by
  refine ⟨by decide, by decide, ?_, by decide, by decide, by decide, by decide⟩
  decide

theorem loadClean_pastDue_nonneg (t : List TRow) : ∀ r ∈ loadClean t, 0 ≤ r.pastDue := by
  intro r hr
  unfold loadClean at hr
  rw [List.mem_map] at hr
  obtain ⟨r0, _, rfl⟩ := hr
  exact cleanNumeric_nonneg _

theorem refresh_pastDue_nonneg (tc : List ARow) (htc : ∀ x ∈ tc, 0 ≤ x.pastDue)
    (r : ARow) : 0 ≤ (refresh tc r).pastDue := by
  unfold refresh
  cases hfind : tc.find? (fun x => x.lan = r.lan) with
  | none => norm_num
  | some x => exact htc x (List.mem_of_find?_eq_some hfind)

/-- C10: after numeric cleaning every monetary value is non-negative —
currency symbols, separators and every dash (including a leading sign) are
stripped before coercion and failures default to 0 — and consequently every
refreshed account satisfies `PAST DUE = 0` or `PAST DUE > 0`, making the
pullout/active split exhaustive. -/
theorem c10_monetary_nonneg (c : Cell) (yesterday today : List TRow) :
    0 ≤ cleanNumeric c ∧
    (cleanNumeric c = 0 ∨ 0 < cleanNumeric c) ∧
    (∀ r ∈ (loadClean yesterday).map (refresh (loadClean today)),
      r.pastDue = 0 ∨ 0 < r.pastDue) := by
  refine ⟨cleanNumeric_nonneg c, ?_, ?_⟩
  · rcases (cleanNumeric_nonneg c).lt_or_eq with hlt | heq
    · exact Or.inr hlt
    · exact Or.inl heq.symm
  · intro r hr
    rw [List.mem_map] at hr
    obtain ⟨r0, _, rfl⟩ := hr
    have hge := refresh_pastDue_nonneg (loadClean today) (loadClean_pastDue_nonneg today) r0
    rcases hge.lt_or_eq with hlt | heq
    · exact Or.inr hlt
    · exact Or.inl heq.symm

/-- C10 witness: a negative, currency-formatted string cleans to a
non-negative number, and a concrete refreshed account lands in the
exhaustive split. -/
theorem c10_witness :
    0 ≤ cleanNumeric (.str "₱-1,234.50") ∧
    ((ARow.mk "L2" 0 "" "" "" Cell.na).pastDue = 0 ∨
      0 < (ARow.mk "L2" 0 "" "" "" Cell.na).pastDue) :=
  ⟨(c10_monetary_nonneg (.str "₱-1,234.50") [] []).1,
   (c10_monetary_nonneg (.str "₱-1,234.50")
      [⟨"L2", .num 500, "", "", "", .na⟩] [⟨"L2", .num 0, "", "", "", .na⟩]).2.2
      ⟨"L2", 0, "", "", "", .na⟩ (by decide)⟩

theorem backfillML_fields (ml : List MRow) (x : ARow) :
    (backfillML ml x).classification = x.classification ∧
    (backfillML ml x).endoDate = x.endoDate ∧
    (backfillML ml x).lan = x.lan ∧
    (backfillML ml x).pastDue = x.pastDue := by
  unfold backfillML
  cases (normML ml).find? (fun m => m.lan = x.lan) <;> exact ⟨rfl, rfl, rfl, rfl⟩

theorem mkRevive_fields (ml : List MRow) (todayStr : String) (x : ARow) :
    (mkRevive ml todayStr x).classification = "REENDO" ∧
    (mkRevive ml todayStr x).endoDate = fmtCellFlex todayStr ∧
    (mkRevive ml todayStr x).lan = x.lan ∧
    (mkRevive ml todayStr x).pastDue = x.pastDue := by
  unfold mkRevive formatARowFlex
  obtain ⟨h1, h2, h3, h4⟩ :=
    backfillML_fields ml { x with classification := "REENDO", endoDate := todayStr }
  exact ⟨h1, by rw [h2], h3, h4⟩

theorem formatARowStrict_fields (x : ARow) :
    (formatARowStrict x).classification = x.classification ∧
    (formatARowStrict x).endoDate = fmtCellStrict x.endoDate ∧
    (formatARowStrict x).lan = x.lan ∧
    (formatARowStrict x).pastDue = x.pastDue :=
  ⟨rfl, rfl, rfl, rfl⟩

theorem refresh_lan (tc : List ARow) (r : ARow) : (refresh tc r).lan = r.lan := by
  unfold refresh
  cases tc.find? (fun x => x.lan = r.lan) <;> rfl

theorem keysA_map_strict (l : List ARow) : keysA (l.map formatARowStrict) = keysA l := by
  unfold keysA
  rw [List.map_map]
  exact List.map_congr_left (fun r _ => rfl)

theorem keysA_updated (yesterday today : List TRow) :
    keysA (updatedActive yesterday today) = yLans yesterday := by
  unfold keysA updatedActive yLans
  rw [List.map_map]
  exact List.map_congr_left (fun r _ => refresh_lan _ r)

theorem dedupLast_sub (l : List TRow) : ∀ r ∈ dedupLast l, r ∈ l := by
  induction l with
  | nil => intro r hr; exact absurd hr (List.not_mem_nil r)
  | cons x rest ih =>
    intro r hr
    unfold dedupLast at hr
    by_cases hany : rest.any (fun z => z.lan = x.lan)
    · rw [if_pos hany] at hr
      exact List.mem_cons_of_mem _ (ih r hr)
    · rw [if_neg hany] at hr
      rcases List.mem_cons.mp hr with heq | htl
      · exact heq ▸ List.mem_cons_self _ _
      · exact List.mem_cons_of_mem _ (ih r htl)

theorem dedupLast_keys_nodup (l : List TRow) : ((dedupLast l).map (·.lan)).Nodup := by
  induction l with
  | nil => exact List.nodup_nil
  | cons x rest ih =>
    unfold dedupLast
    by_cases hany : rest.any (fun z => z.lan = x.lan)
    · rw [if_pos hany]
      exact ih
    · rw [if_neg hany, List.map_cons]
      refine List.nodup_cons.mpr ⟨?_, ih⟩
      intro hmem
      rw [List.mem_map] at hmem
      obtain ⟨z, hz, hzeq⟩ := hmem
      have hzrest : z ∈ rest := dedupLast_sub rest z hz
      exact hany (List.any_eq_true.mpr ⟨z, hzrest, by rw [decide_eq_true_eq]; exact hzeq⟩)

theorem yLans_nodup (yesterday : List TRow) : (yLans yesterday).Nodup := by
  unfold yLans loadClean
  rw [List.map_map]
  have hfun : ((fun (r : ARow) => r.lan) ∘ cleanRow) = fun (r : TRow) => r.lan := rfl
  rw [hfun]
  exact dedupLast_keys_nodup _

theorem reviveRows_lan_mem (yesterday today : List TRow) (ml : List MRow) (todayStr : String) :
    ∀ r ∈ reviveRows yesterday today ml todayStr, r.lan ∈ reviveKeys yesterday today := by
  intro r hr
  unfold reviveRows at hr
  rw [List.mem_map] at hr
  obtain ⟨r1, hr1, rfl⟩ := hr
  rw [List.mem_map] at hr1
  obtain ⟨r0, hr0, rfl⟩ := hr1
  have hmem := (List.mem_filter.mp hr0).2
  rw [decide_eq_true_eq] at hmem
  rw [(formatARowStrict_fields _).2.2.1, (mkRevive_fields ml todayStr r0).2.2.1]
  exact hmem

theorem reviveKeys_not_yesterday (yesterday today : List TRow) :
    ∀ lan ∈ reviveKeys yesterday today, lan ∉ yLans yesterday := by
  intro lan hlan
  unfold reviveKeys at hlan
  have h2 := (List.mem_filter.mp hlan).2
  simp only [Bool.not_eq_true', decide_eq_false_iff_not] at h2
  exact h2

/-- C4: the revive key set is exactly (keys of today's transactions with
positive past due) minus (all of yesterday's keys, regardless of past due),
and every revived record is classified `REENDO` with `ENDO DATE` = run date
and is appended to the final active list. -/
theorem c4_revive (yesterday today : List TRow) (ml : List MRow) (todayStr : String)
    (t : Date) (ht : ValidDate t) (hts : todayStr = fmtMDY t) :
    (∀ lan, lan ∈ reviveKeys yesterday today ↔
      (lan ∈ tPosLans today ∧ lan ∉ yLans yesterday)) ∧
    (∀ r ∈ (dailyFlow yesterday today ml todayStr).revive,
      r.classification = "REENDO" ∧ r.endoDate = todayStr ∧
      r ∈ (dailyFlow yesterday today ml todayStr).finalActive) := by
  constructor
  · intro lan
    unfold reviveKeys
    rw [List.mem_filter]
    simp
  · intro r hr
    have hr2 : r ∈ reviveRows yesterday today ml todayStr := hr
    unfold reviveRows at hr2
    rw [List.mem_map] at hr2
    obtain ⟨r1, hr1, rfl⟩ := hr2
    rw [List.mem_map] at hr1
    obtain ⟨r0, hr0, rfl⟩ := hr1
    obtain ⟨hc, he, _, _⟩ := mkRevive_fields ml todayStr r0
    obtain ⟨hc2, he2, _, _⟩ := formatARowStrict_fields (mkRevive ml todayStr r0)
    refine ⟨by rw [hc2, hc], ?_, ?_⟩
    · rw [he2, he, hts, fmtCellFlex_fmtMDY ht, fmtCellStrict_fmtMDY ht]
    · show _ ∈ finalActiveRows yesterday today ml todayStr
      unfold finalActiveRows
      refine List.mem_append_right _ ?_
      unfold reviveRows
      exact List.mem_map_of_mem _ (List.mem_map_of_mem _ hr0)

/-- C4 witness (Scenario E): key `L3` absent yesterday, present today with
past due 300, lands in the revive set classified `REENDO` with today's endo
date, inside the final active list. -/
theorem c4_witness :
    ("L3" ∈ reviveKeys [⟨"L2", .num 500, "", "", "", .na⟩] [⟨"L3", .num 300, "", "", "", .na⟩] ↔
      ("L3" ∈ tPosLans [⟨"L3", .num 300, "", "", "", .na⟩] ∧
       "L3" ∉ yLans [⟨"L2", .num 500, "", "", "", .na⟩])) ∧
    ((ARow.mk "L3" 300 "REENDO" "10/12/2026" "" Cell.na).classification = "REENDO" ∧
     (ARow.mk "L3" 300 "REENDO" "10/12/2026" "" Cell.na).endoDate = "10/12/2026" ∧
     (ARow.mk "L3" 300 "REENDO" "10/12/2026" "" Cell.na) ∈
       (dailyFlow [⟨"L2", .num 500, "", "", "", .na⟩] [⟨"L3", .num 300, "", "", "", .na⟩]
          [] "10/12/2026").finalActive) :=
  ⟨(c4_revive [⟨"L2", .num 500, "", "", "", .na⟩] [⟨"L3", .num 300, "", "", "", .na⟩]
      [] "10/12/2026" ⟨2026, 10, 12⟩ (by decide) (by decide)).1 "L3",
   (c4_revive [⟨"L2", .num 500, "", "", "", .na⟩] [⟨"L3", .num 300, "", "", "", .na⟩]
      [] "10/12/2026" ⟨2026, 10, 12⟩ (by decide) (by decide)).2
      ⟨"L3", 300, "REENDO", "10/12/2026", "", .na⟩ (by decide)⟩

theorem forUpdate_eq_active (yesterday today : List TRow) (ml : List MRow) (todayStr : String) :
    forUpdateRows yesterday today ml todayStr = (activeRows yesterday today).map formatARowStrict := by
  unfold forUpdateRows finalActiveRows
  rw [List.filter_append]
  have h1 : (reviveRows yesterday today ml todayStr).filter
      (fun r => !(r.lan ∈ reviveKeys yesterday today)) = [] := by
    rw [List.filter_eq_nil_iff]
    intro r hr
    have hmem := reviveRows_lan_mem yesterday today ml todayStr r hr
    simp [hmem]
  have h2 : ((activeRows yesterday today).map formatARowStrict).filter
      (fun r => !(r.lan ∈ reviveKeys yesterday today)) =
      (activeRows yesterday today).map formatARowStrict := by
    rw [List.filter_eq_self]
    intro r hr
    rw [List.mem_map] at hr
    obtain ⟨r0, hr0, rfl⟩ := hr
    have hr0u : r0 ∈ updatedActive yesterday today := (List.mem_filter.mp hr0).1
    have hy : r0.lan ∈ yLans yesterday := by
      rw [← keysA_updated yesterday today]
      exact List.mem_map_of_mem _ hr0u
    have hlan : (formatARowStrict r0).lan = r0.lan := rfl
    rw [hlan, Bool.not_eq_true', decide_eq_false_iff_not]
    intro hcon
    exact reviveKeys_not_yesterday yesterday today _ hcon hy
  rw [h1, h2, List.append_nil]

/-- C5: the daily partitions are pairwise disjoint by key — pullout vs
for-update, pullout vs revive, for-update vs revive — the final active list
is exactly the union of the for-update and revived keys, pullout keys never
appear in the final active list, and (Scenario D) a key whose refreshed past
due becomes 0 lands in pullout and not in the final active list. -/
theorem c5_partitions (yesterday today : List TRow) (ml : List MRow) (todayStr : String) :
    (∀ lan, ¬(lan ∈ keysA (dailyFlow yesterday today ml todayStr).pullout ∧
             lan ∈ keysA (dailyFlow yesterday today ml todayStr).forUpdate)) ∧
    (∀ lan, ¬(lan ∈ keysA (dailyFlow yesterday today ml todayStr).pullout ∧
             lan ∈ keysA (dailyFlow yesterday today ml todayStr).revive)) ∧
    (∀ lan, ¬(lan ∈ keysA (dailyFlow yesterday today ml todayStr).forUpdate ∧
             lan ∈ keysA (dailyFlow yesterday today ml todayStr).revive)) ∧
    (∀ lan, lan ∈ keysA (dailyFlow yesterday today ml todayStr).finalActive ↔
        (lan ∈ keysA (dailyFlow yesterday today ml todayStr).forUpdate ∨
         lan ∈ keysA (dailyFlow yesterday today ml todayStr).revive)) ∧
    (∀ lan, ¬(lan ∈ keysA (dailyFlow yesterday today ml todayStr).pullout ∧
             lan ∈ keysA (dailyFlow yesterday today ml todayStr).finalActive)) ∧
    ("L2" ∈ keysA (dailyFlow [⟨"L2", .num 500, "", "", "", .na⟩]
        [⟨"L2", .num 0, "", "", "", .na⟩] [] "01/05/2026").pullout ∧
     "L2" ∉ keysA (dailyFlow [⟨"L2", .num 500, "", "", "", .na⟩]
        [⟨"L2", .num 0, "", "", "", .na⟩] [] "01/05/2026").finalActive) := by
  have hnodup : ((updatedActive yesterday today).map (fun (r : ARow) => r.lan)).Nodup := by
    have := yLans_nodup yesterday
    rw [← keysA_updated yesterday today] at this
    exact this
  have hinj := List.inj_on_of_nodup_map hnodup
  have hpul : ∀ lan, lan ∈ keysA (pulloutRows yesterday today) →
      ∃ r, r ∈ updatedActive yesterday today ∧ r.pastDue = 0 ∧ r.lan = lan := by
    intro lan h
    unfold pulloutRows at h
    rw [keysA_map_strict] at h
    unfold keysA at h
    rw [List.mem_map] at h
    obtain ⟨r, hr, rfl⟩ := h
    have h1 := List.mem_filter.mp hr
    exact ⟨r, h1.1, by simpa using h1.2, rfl⟩
  have hact : ∀ lan, lan ∈ keysA ((activeRows yesterday today).map formatARowStrict) →
      ∃ r, r ∈ updatedActive yesterday today ∧ 0 < r.pastDue ∧ r.lan = lan := by
    intro lan h
    rw [keysA_map_strict] at h
    unfold activeRows keysA at h
    rw [List.mem_map] at h
    obtain ⟨r, hr, rfl⟩ := h
    have h1 := List.mem_filter.mp hr
    exact ⟨r, h1.1, by simpa using h1.2, rfl⟩
  have hrev : ∀ lan, lan ∈ keysA (reviveRows yesterday today ml todayStr) →
      lan ∈ reviveKeys yesterday today := by
    intro lan h
    unfold keysA at h
    rw [List.mem_map] at h
    obtain ⟨r, hr, rfl⟩ := h
    exact reviveRows_lan_mem yesterday today ml todayStr r hr
  have hyl : ∀ lan, lan ∈ keysA ((activeRows yesterday today).map formatARowStrict) →
      lan ∈ yLans yesterday := by
    intro lan h
    obtain ⟨r, hru, _, hrl⟩ := hact lan h
    rw [← hrl, ← keysA_updated yesterday today]
    exact List.mem_map_of_mem _ hru
  have hd1 : ∀ lan, ¬(lan ∈ keysA (pulloutRows yesterday today) ∧
      lan ∈ keysA ((activeRows yesterday today).map formatARowStrict)) := by
    rintro lan ⟨h1, h2⟩
    obtain ⟨r, hru, hr0, hrl⟩ := hpul lan h1
    obtain ⟨r2, hr2u, hr2pos, hr2l⟩ := hact lan h2
    have heq : r = r2 := hinj hru hr2u (by rw [hrl, hr2l])
    rw [heq] at hr0
    rw [hr0] at hr2pos
    exact lt_irrefl 0 hr2pos
  have hd2 : ∀ lan, ¬(lan ∈ keysA (pulloutRows yesterday today) ∧
      lan ∈ keysA (reviveRows yesterday today ml todayStr)) := by
    rintro lan ⟨h1, h2⟩
    obtain ⟨r, hru, _, hrl⟩ := hpul lan h1
    have hy : lan ∈ yLans yesterday := by
      rw [← hrl, ← keysA_updated yesterday today]
      exact List.mem_map_of_mem _ hru
    exact reviveKeys_not_yesterday yesterday today lan (hrev lan h2) hy
  have hd3 : ∀ lan, ¬(lan ∈ keysA ((activeRows yesterday today).map formatARowStrict) ∧
      lan ∈ keysA (reviveRows yesterday today ml todayStr)) := by
    rintro lan ⟨h1, h2⟩
    exact reviveKeys_not_yesterday yesterday today lan (hrev lan h2) (hyl lan h1)
  have hsplit : ∀ lan, lan ∈ keysA (finalActiveRows yesterday today ml todayStr) ↔
      (lan ∈ keysA ((activeRows yesterday today).map formatARowStrict) ∨
       lan ∈ keysA (reviveRows yesterday today ml todayStr)) := by
    intro lan
    unfold finalActiveRows keysA
    rw [List.map_append, List.mem_append]
  have hfu : (dailyFlow yesterday today ml todayStr).forUpdate =
      (activeRows yesterday today).map formatARowStrict :=
    forUpdate_eq_active yesterday today ml todayStr
  refine ⟨?_, ?_, ?_, ?_, ?_, ?_, ?_⟩
  · intro lan
    rw [hfu]
    exact hd1 lan
  · exact hd2
  · intro lan
    rw [hfu]
    exact hd3 lan
  · intro lan
    rw [hfu]
    exact hsplit lan
  · rintro lan ⟨h1, h2⟩
    rcases (hsplit lan).mp h2 with h2a | h2r
    · exact hd1 lan ⟨h1, h2a⟩
    · exact hd2 lan ⟨h1, h2r⟩
  · decide
  · decide

/-- C5 witness: disjointness instantiated at a concrete key and concrete
tables. -/
theorem c5_witness :
    ¬("L9" ∈ keysA (dailyFlow [⟨"L9", .num 750, "", "", "", .na⟩]
        [⟨"L9", .num 10, "", "", "", .na⟩] [] "01/05/2026").pullout ∧
      "L9" ∈ keysA (dailyFlow [⟨"L9", .num 750, "", "", "", .na⟩]
        [⟨"L9", .num 10, "", "", "", .na⟩] [] "01/05/2026").forUpdate) :=
  (c5_partitions [⟨"L9", .num 750, "", "", "", .na⟩]
    [⟨"L9", .num 10, "", "", "", .na⟩] [] "01/05/2026").1 "L9"
